import Mathlib

/-!
Verification of `sysver` (src/sysver.c), a small OpenBSD system-information
reporting tool.  The embedding models C strings and raw buffers as `List Nat`
(byte values), the flag table as a list of code/token pairs, the sequence of
successful `read` calls on the kernel image as a list of (buffer, nread)
pairs — the buffer is the full 2048-byte array contents, of which only the
first `nread` bytes are valid; residual bytes beyond `nread` model stale or
uninitialized buffer contents — and the I/O-dependent `sysctl`/`uname`
results as an environment record.
-/

/-- ASCII bytes of a Lean string literal (all source strings are ASCII). -/
def bytes (s : String) : List Nat := s.toList.map Char.toNat

/-! ## strpchr (src/sysver.c lines 31-42)

`strpchr(haystack, c)` walks the NUL-terminated string and returns the index
of the first occurrence of `c`; it returns 0 both when `c` is not found
before the terminator and when `c` sits at index 0.  The list argument is
the memory from the start pointer onward; running off the end of the list
corresponds to memory past the modelled buffer. -/

def strpchrAux (c : Nat) : Nat → List Nat → Nat
  | _, [] => 0
  | i, b :: rest => if b = 0 then 0 else if b = c then i else strpchrAux c (i + 1) rest

def strpchr (s : List Nat) (c : Nat) : Nat := strpchrAux c 0 s

/-- consltill (src/sysver.c lines 47-56): advance a pointer by `n`; on index
representation this is addition. -/
def consltill (p n : Nat) : Nat := p + n

/-- Bytes copied by `strdup` from a C string: everything up to the first NUL. -/
def cstr (s : List Nat) : List Nat := s.takeWhile (fun b => b != 0)

/-! ## The chunk scan of get_inst_kern_ver (src/sysver.c lines 116-134)

The inner `for` loop: `p` ranges over `[0, nread)`; the marker test reads
`buf[p]`, `buf[p+1]`, `buf[p+2]`, `buf[p+3]` with no bound other than
`p < nread` (the last three reads may fall beyond the valid bytes).  On a
match the code skips the 4 marker bytes, runs `strpchr` for a newline,
overwrites the newline with NUL when its index is positive, and `strdup`s
the remaining C string. -/

def isMarkerAt (buf : List Nat) (p : Nat) : Bool :=
  (buf.getD p 0 == 64) && (buf.getD (p + 1) 0 == 40) &&
  (buf.getD (p + 2) 0 == 35) && (buf.getD (p + 3) 0 == 41)

/-- One step of the scan loop per unit of fuel; the caller passes `nread`
fuel so that the `p < nread` test, not fuel exhaustion, ends the loop. -/
def scanGo (buf : List Nat) (nread : Nat) : Nat → Nat → Option (List Nat)
  | _, 0 => none
  | p, fuel + 1 =>
    if p < nread then
      if isMarkerAt buf p then
        let q := consltill p 4
        let s := buf.drop q
        let pos := strpchr s 10
        let s2 := if 0 < pos then s.set pos 0 else s
        some (cstr s2)
      else scanGo buf nread (p + 1) fuel
    else none

/-- Scan of one chunk: first marker hit wins. -/
def scanChunk (buf : List Nat) (nread : Nat) : Option (List Nat) :=
  scanGo buf nread 0 nread

/-- get_inst_kern_ver (src/sysver.c lines 92-138), read loop: process each
successful read in order; the first chunk whose scan finds the marker
yields the duplicated string, else the result is absence (NULL). -/
def get_inst_kern_ver : List (List Nat × Nat) → Option (List Nat)
  | [] => none
  | (buf, nread) :: rest =>
    match scanChunk buf nread with
    | some r => some r
    | none => get_inst_kern_ver rest

/-! ## File-descriptor trace of get_inst_kern_ver (for the resource claim)

The same control flow, instrumented with the file events the function
performs: `open` at entry, one `read` per chunk consumed, `close` either
right before the marker-found return (line 126) or after the loop
(line 136).  `strdup` happens after the close and, on failure, terminates
the process rather than returning. -/

inductive FsEvent where
  | eopen : FsEvent
  | eread : Nat → FsEvent
  | eclose : FsEvent
  deriving DecidableEq

def kernLoop : List (List Nat × Nat) → List FsEvent × Option (List Nat)
  | [] => ([FsEvent.eclose], none)
  | (buf, nread) :: rest =>
    match scanChunk buf nread with
    | some r => ([FsEvent.eread nread, FsEvent.eclose], some r)
    | none =>
      let t := kernLoop rest
      (FsEvent.eread nread :: t.1, t.2)

def kern_trace (chunks : List (List Nat × Nat)) : List FsEvent × Option (List Nat) :=
  ((FsEvent.eopen :: (kernLoop chunks).1), (kernLoop chunks).2)

/-! ## strstr and the argument matcher (src/sysver.c lines 157-177) -/

/-- Does `needle` match `hay` at its head (byte-wise prefix test)? -/
def matchesHere : List Nat → List Nat → Bool
  | [], _ => true
  | _ :: _, [] => false
  | a :: as, b :: bs => (a == b) && matchesHere as bs

/-- strstr(hay, needle) returns non-NULL exactly when `needle` occurs in
`hay` as a contiguous substring (the empty needle always occurs). -/
def strstrB (hay needle : List Nat) : Bool :=
  (List.range (hay.length + 1)).any (fun i => matchesHere needle (hay.drop i))

/-- Table-scan loop of match_args: the sentinel entry `{0, NULL}` ends the
walk (list end here); `strstr((*cb).cmd, *argv)` non-NULL returns the code;
falling off the table returns 0.  The loop's `*argv == NULL` break can never
fire on the first iteration (a NULL argv[1] returned -1 earlier) and `argv`
is never advanced again, so it is dead. -/
def matchLoop (a : List Nat) : List (Int × List Nat) → Int
  | [] => 0
  | e :: rest => if strstrB e.2 a then e.1 else matchLoop a rest

/-- match_args (src/sysver.c lines 157-177): `none` models a NULL argv[1];
the dash test reads argv[1][0] and argv[1][1] (`headD 0` models reading the
NUL terminator when the string is shorter). -/
def match_args (t : List (Int × List Nat)) (argv1 : Option (List Nat)) : Int :=
  match argv1 with
  | none => -1
  | some a =>
    if a.headD 0 = 45 ∧ (a.drop 1).headD 0 = 0 then -2
    else matchLoop a t

/-- The flag table of main (src/sysver.c lines 205-217), sentinel omitted
(it is the list end). -/
def cb : List (Int × List Nat) :=
  [ (1,  bytes "-machine"),
    (2,  bytes "-model"),
    (3,  bytes "-ncpu"),
    (4,  bytes "-border"),
    (5,  bytes "-oncpu"),
    (6,  bytes "-issmt"),
    (7,  bytes "-uname"),
    (8,  bytes "-bsdver"),
    (9,  bytes "-ikern"),
    (10, bytes "-help") ]

/-! ## The entry point (src/sysver.c lines 200-278)

The sysctl and uname results are externally supplied facts; an `Env` record
stands for them (the tool treats a failing query as fatal, which ends the
process before any of the behaviour modelled here — the record models the
successful-query executions the claims are about). -/

structure Utsname where
  sysname : List Nat
  nodename : List Nat
  release : List Nat
  version : List Nat
  machine : List Nat

structure Env where
  hw_machine : List Nat
  hw_model : List Nat
  hw_ncpu : Int
  hw_byteorder : Int
  hw_ncpuonline : Int
  hw_smt : Int
  uts : Utsname
  kern_chunks : List (List Nat × Nat)

/-- Observable outcome of main: what is printed where, or which fatal error
path is taken.  `fallthrough` is the unreachable no-case-matched exit of the
C switch. -/
inductive MainResult where
  | printLine : List Nat → MainResult
  | printNum : Int → MainResult
  | ikernUnknown : MainResult
  | usage : Bool → MainResult
  | invalidOption : List Nat → MainResult
  | expectsOption : List Nat → MainResult
  | fallthrough : MainResult
  deriving DecidableEq

/-- Byte-order switch of main, case 4 (src/sysver.c lines 233-244). -/
def byte_order_str (n : Int) : List Nat :=
  if n = 1234 then bytes "little" else if n = 4321 then bytes "big" else bytes "mixed"

/-- get_uname_info's output line (src/sysver.c lines 142-154), newline
excluded (added by rendering). -/
def uname_line (u : Utsname) (only_version : Bool) : List Nat :=
  if only_version then u.sysname ++ 32 :: u.release
  else u.sysname ++ 32 :: u.nodename ++ 32 :: u.release ++ 32 :: u.version ++ 32 :: u.machine

/-- The switch of main on the dispatcher's code (src/sysver.c lines 219-277). -/
def dispatch (env : Env) (arg : List Nat) (code : Int) : MainResult :=
  if code = 1 then MainResult.printLine env.hw_machine
  else if code = 2 then MainResult.printLine env.hw_model
  else if code = 3 then MainResult.printNum env.hw_ncpu
  else if code = 4 then MainResult.printLine (byte_order_str env.hw_byteorder)
  else if code = 5 then MainResult.printNum env.hw_ncpuonline
  else if code = 6 then MainResult.printLine (if env.hw_smt = 0 then bytes "no" else bytes "yes")
  else if code = 7 then MainResult.printLine (uname_line env.uts false)
  else if code = 8 then MainResult.printLine (uname_line env.uts true)
  else if code = 9 then
    match get_inst_kern_ver env.kern_chunks with
    | none => MainResult.ikernUnknown
    | some s => MainResult.printLine s
  else if code = 10 then MainResult.usage true
  else if code = 0 then MainResult.invalidOption arg
  else if code = -1 then MainResult.usage false
  else if code = -2 then MainResult.expectsOption arg
  else MainResult.fallthrough

/-- main: dispatch on match_args over the fixed table. -/
def sysver_main (env : Env) (argv1 : Option (List Nat)) : MainResult :=
  dispatch env (argv1.getD []) (match_args cb argv1)

/-- Usage block of print_usage (src/sysver.c lines 186-196). -/
def usage_text : List Nat :=
  bytes "usage\n -machine\tmachine architecture\n -model\t\tcpu model\n -ncpu\t\tnumber of cpus\n -border\tbyte order\n -oncpu\t\tnumber of online cpus\n -issmt\t\tis smt enabled?\n -uname\t\tequivalent of uname -a\n -bsd\t\topenbsd version\n -ikern\t\tcurrently installed kernel\n -help\t\tshow me\n"

/-- Bytes written to standard output (printf adds the newline). -/
def renderOut : MainResult → List Nat
  | MainResult.printLine s => s ++ [10]
  | MainResult.printNum n => bytes (toString n) ++ [10]
  | MainResult.usage true => usage_text
  | _ => []

/-- Bytes written to the error stream (errx's program-name prefix is not
modelled, only its formatted message). -/
def renderErr : MainResult → List Nat
  | MainResult.ikernUnknown => bytes "unknown (I can't find it!)\n"
  | MainResult.invalidOption a => 39 :: (a ++ 39 :: bytes " option is invalid.\n")
  | MainResult.expectsOption a => 39 :: (a ++ 39 :: bytes " expects an option.\n")
  | MainResult.usage false => usage_text
  | _ => []

/-- Process exit status: errx and the failure usage path exit EXIT_FAILURE,
everything else (help, any print, the ikern fall-off of main) exits 0. -/
def exit_code : MainResult → Nat
  | MainResult.usage false => 1
  | MainResult.invalidOption _ => 1
  | MainResult.expectsOption _ => 1
  | _ => 0

/-- A concrete environment used by witnesses: its kernel image bytes are
marker-free. -/
def defaultEnv : Env :=
  ⟨[], [], 0, 0, 0, 0, ⟨[], [], [], [], []⟩, [([65, 0], 2)]⟩

/-! ## Helper lemmas -/

lemma getD_of_drop (buf : List Nat) : ∀ (i x : Nat) (t : List Nat),
    buf.drop i = x :: t → buf.getD i 0 = x := by
  induction buf with
  | nil => intro i x t h; simp at h
  | cons b bs ih =>
    intro i x t h
    cases i with
    | zero =>
      simp at h
      simp [h.1]
    | succ n =>
      simp only [List.drop_succ_cons] at h
      simpa [List.getD_cons_succ] using ih n x t h

lemma drop_succ_of_drop (buf : List Nat) : ∀ (i x : Nat) (t : List Nat),
    buf.drop i = x :: t → buf.drop (i + 1) = t := by
  induction buf with
  | nil => intro i x t h; simp at h
  | cons b bs ih =>
    intro i x t h
    cases i with
    | zero =>
      simp at h
      simp [h.2]
    | succ n =>
      simp only [List.drop_succ_cons] at h
      simpa [List.drop_succ_cons] using ih n x t h

lemma isMarkerAt_of_drop (buf : List Nat) (i : Nat) (rest : List Nat)
    (h : buf.drop i = 64 :: 40 :: 35 :: 41 :: rest) : isMarkerAt buf i = true := by
  have h0 := getD_of_drop buf i 64 _ h
  have d1 := drop_succ_of_drop buf i 64 _ h
  have h1 := getD_of_drop buf (i + 1) 40 _ d1
  have d2 := drop_succ_of_drop buf (i + 1) 40 _ d1
  have h2 := getD_of_drop buf (i + 2) 35 _ d2
  have d3 := drop_succ_of_drop buf (i + 2) 35 _ d2
  have h3 := getD_of_drop buf (i + 3) 41 _ d3
  simp only [isMarkerAt, Bool.and_eq_true, beq_iff_eq]
  exact ⟨⟨⟨h0, h1⟩, h2⟩, h3⟩

lemma drop_add4_of_drop (buf : List Nat) (i : Nat) (a b c d : Nat) (rest : List Nat)
    (h : buf.drop i = a :: b :: c :: d :: rest) : buf.drop (i + 4) = rest := by
  have d1 := drop_succ_of_drop buf i a _ h
  have d2 := drop_succ_of_drop buf (i + 1) b _ d1
  have d3 := drop_succ_of_drop buf (i + 2) c _ d2
  exact drop_succ_of_drop buf (i + 3) d _ d3

lemma strpchrAux_cons (c i b : Nat) (rest : List Nat) :
    strpchrAux c i (b :: rest) =
      if b = 0 then 0 else if b = c then i else strpchrAux c (i + 1) rest := rfl

lemma strpchrAux_append (c : Nat) (hc : c ≠ 0) : ∀ (pre : List Nat) (tail : List Nat) (i : Nat),
    (∀ b ∈ pre, b ≠ 0 ∧ b ≠ c) →
    strpchrAux c i (pre ++ c :: tail) = pre.length + i := by
  intro pre
  induction pre with
  | nil => intro tail i _; simp [strpchrAux, hc]
  | cons b pre ih =>
    intro tail i hb
    have hb0 : b ≠ 0 := (hb b (by simp)).1
    have hbc : b ≠ c := (hb b (by simp)).2
    rw [List.cons_append, strpchrAux_cons, if_neg hb0, if_neg hbc,
      ih tail (i + 1) (fun x hx => hb x (by simp [hx]))]
    simp [List.length_cons]
    omega

lemma strpchr_append (c : Nat) (hc : c ≠ 0) (pre tail : List Nat)
    (hb : ∀ b ∈ pre, b ≠ 0 ∧ b ≠ c) :
    strpchr (pre ++ c :: tail) c = pre.length := by
  unfold strpchr
  rw [strpchrAux_append c hc pre tail 0 hb]
  omega

lemma set_len_append : ∀ (pre : List Nat) (b x : Nat) (tail : List Nat),
    (pre ++ b :: tail).set pre.length x = pre ++ x :: tail := by
  intro pre
  induction pre with
  | nil => intros; rfl
  | cons a pre ih => intro b x tail; simp [List.set, ih]

lemma cstr_cons (a : Nat) (l : List Nat) :
    cstr (a :: l) = if a != 0 then a :: cstr l else [] := by
  simp [cstr, List.takeWhile_cons]

lemma cstr_append : ∀ (pre tail : List Nat), (∀ b ∈ pre, b ≠ 0) →
    cstr (pre ++ 0 :: tail) = pre := by
  intro pre
  induction pre with
  | nil => intros; rfl
  | cons a pre ih =>
    intro tail h
    have ha : (a != 0) = true := by simpa using h a (by simp)
    rw [List.cons_append, cstr_cons, if_pos ha, ih tail (fun b hb => h b (by simp [hb]))]

lemma scanGo_step (buf : List Nat) (nread p fuel : Nat) (hp : p < nread)
    (hm : isMarkerAt buf p = false) :
    scanGo buf nread p (fuel + 1) = scanGo buf nread (p + 1) fuel := by
  simp [scanGo, hp, hm]

lemma scanGo_found (buf : List Nat) (nread p fuel : Nat) (hp : p < nread)
    (hm : isMarkerAt buf p = true) :
    scanGo buf nread p (fuel + 1) =
      some (cstr (if 0 < strpchr (buf.drop (p + 4)) 10
                  then (buf.drop (p + 4)).set (strpchr (buf.drop (p + 4)) 10) 0
                  else buf.drop (p + 4))) := by
  simp [scanGo, hp, hm, consltill]

lemma scanGo_skip (buf : List Nat) (nread : Nat) :
    ∀ (k p fuel : Nat), p + k ≤ nread →
    (∀ j, p ≤ j → j < p + k → isMarkerAt buf j = false) →
    scanGo buf nread p (fuel + k) = scanGo buf nread (p + k) fuel := by
  intro k
  induction k with
  | zero => intro p fuel _ _; rfl
  | succ k ih =>
    intro p fuel hle hno
    have hp : p < nread := by omega
    have hm : isMarkerAt buf p = false := hno p (le_refl p) (by omega)
    have step : scanGo buf nread p (fuel + (k + 1)) = scanGo buf nread (p + 1) (fuel + k) :=
      scanGo_step buf nread p (fuel + k) hp hm
    have h2 := ih (p + 1) fuel (by omega) (fun j hj1 hj2 => hno j (by omega) (by omega))
    have he : p + 1 + k = p + (k + 1) := by omega
    rw [step, h2, he]

lemma scanGo_none (buf : List Nat) (nread : Nat)
    (h : ∀ p, p < nread → isMarkerAt buf p = false) :
    ∀ (fuel p : Nat), scanGo buf nread p fuel = none := by
  intro fuel
  induction fuel with
  | zero => intro p; rfl
  | succ fuel ih =>
    intro p
    by_cases hp : p < nread
    · simp [scanGo, hp, h p hp, ih]
    · simp [scanGo, hp]

lemma scanChunk_found (buf : List Nat) (nread i : Nat) (ver tail : List Nat)
    (hfirst : ∀ j, j < i → isMarkerAt buf j = false)
    (hlt : i < nread)
    (hdrop : buf.drop i = 64 :: 40 :: 35 :: 41 :: (ver ++ 10 :: tail))
    (hne : ver ≠ [])
    (hb : ∀ b ∈ ver, b ≠ 0 ∧ b ≠ 10) :
    scanChunk buf nread = some ver := by
  have hm := isMarkerAt_of_drop buf i _ hdrop
  have hd4 : buf.drop (i + 4) = ver ++ 10 :: tail := drop_add4_of_drop buf i _ _ _ _ _ hdrop
  have e1 : scanGo buf nread 0 nread = scanGo buf nread i (nread - i) := by
    have h := scanGo_skip buf nread i 0 (nread - i) (by omega)
      (fun j hj1 hj2 => hfirst j (by omega))
    rw [show nread - i + i = nread by omega] at h
    simpa using h
  have e2 : scanGo buf nread i (nread - i) =
      some (cstr (if 0 < strpchr (buf.drop (i + 4)) 10
                  then (buf.drop (i + 4)).set (strpchr (buf.drop (i + 4)) 10) 0
                  else buf.drop (i + 4))) := by
    rw [show nread - i = (nread - i - 1) + 1 by omega]
    exact scanGo_found buf nread i (nread - i - 1) hlt hm
  have hpos : strpchr (buf.drop (i + 4)) 10 = ver.length := by
    rw [hd4]
    exact strpchr_append 10 (by omega) ver tail hb
  have hlen : 0 < ver.length := List.length_pos.mpr hne
  unfold scanChunk
  rw [e1, e2, hpos, if_pos hlen, hd4, set_len_append]
  rw [cstr_append ver tail (fun b hb' => (hb b hb').1)]

lemma kern_skip : ∀ (pre rest : List (List Nat × Nat)),
    (∀ c ∈ pre, scanChunk c.1 c.2 = none) →
    get_inst_kern_ver (pre ++ rest) = get_inst_kern_ver rest := by
  intro pre
  induction pre with
  | nil => intros; rfl
  | cons c pre ih =>
    intro rest h
    cases c with
    | mk buf nread =>
      have h0 : scanChunk buf nread = none := h (buf, nread) (by simp)
      simp only [List.cons_append, get_inst_kern_ver, h0]
      exact ih rest (fun c hc => h c (by simp [hc]))

lemma kern_found (pre rest : List (List Nat × Nat)) (buf : List Nat) (nread : Nat)
    (ver : List Nat)
    (hpre : ∀ c ∈ pre, scanChunk c.1 c.2 = none)
    (hc : scanChunk buf nread = some ver) :
    get_inst_kern_ver (pre ++ (buf, nread) :: rest) = some ver := by
  rw [kern_skip pre _ hpre]
  simp [get_inst_kern_ver, hc]

lemma kern_none : ∀ (chunks : List (List Nat × Nat)),
    (∀ c ∈ chunks, ∀ p, p < c.2 → isMarkerAt c.1 p = false) →
    get_inst_kern_ver chunks = none := by
  intro chunks
  induction chunks with
  | nil => intro _; rfl
  | cons c rest ih =>
    intro h
    cases c with
    | mk buf nread =>
      have h0 : scanChunk buf nread = none :=
        scanGo_none buf nread (fun p hp => h (buf, nread) (by simp) p hp) nread 0
      simp only [get_inst_kern_ver, h0]
      exact ih (fun c hc => h c (by simp [hc]))

lemma matchLoop_eq_find (a : List Nat) : ∀ (t : List (Int × List Nat)),
    matchLoop a t = ((t.find? (fun e => strstrB e.2 a)).map Prod.fst).getD 0 := by
  intro t
  induction t with
  | nil => rfl
  | cons e rest ih =>
    by_cases h : strstrB e.2 a
    · simp [matchLoop, List.find?_cons_of_pos, h]
    · simp only [matchLoop, h, if_false, Bool.false_eq_true, if_neg]
      rw [List.find?_cons_of_neg _ (by simp [h])]
      exact ih

lemma dash_cond_false (a : List Nat) (h0 : (0 : Nat) ∉ a) (hdash : a ≠ [45]) :
    ¬(a.headD 0 = 45 ∧ (a.drop 1).headD 0 = 0) := by
  rintro ⟨h1, h2⟩
  cases a with
  | nil => simp at h1
  | cons x xs =>
    simp at h1
    cases xs with
    | nil => exact hdash (by simp [h1])
    | cons y ys =>
      simp at h2
      exact h0 (by simp [h2])

lemma kernLoop_spec : ∀ (chunks : List (List Nat × Nat)),
    (kernLoop chunks).1 ≠ [] ∧
    (kernLoop chunks).1.getLast? = some FsEvent.eclose ∧
    (kernLoop chunks).1.count FsEvent.eclose = 1 ∧
    (kernLoop chunks).2 = get_inst_kern_ver chunks := by
  intro chunks
  induction chunks with
  | nil => exact ⟨by decide, by decide, by decide, rfl⟩
  | cons c rest ih =>
    cases c with
    | mk buf nread =>
      obtain ⟨hne, hlast, hcount, hres⟩ := ih
      cases hs : scanChunk buf nread with
      | some r =>
        have h1 : kernLoop ((buf, nread) :: rest) =
            ([FsEvent.eread nread, FsEvent.eclose], some r) := by
          simp [kernLoop, hs]
        refine ⟨?_, ?_, ?_, ?_⟩
        · rw [h1]; simp
        · rw [h1]; rfl
        · rw [h1]; simp [List.count_cons]
        · rw [h1]; simp [get_inst_kern_ver, hs]
      | none =>
        have h1 : kernLoop ((buf, nread) :: rest) =
            (FsEvent.eread nread :: (kernLoop rest).1, (kernLoop rest).2) := by
          simp [kernLoop, hs]
        refine ⟨?_, ?_, ?_, ?_⟩
        · rw [h1]; simp
        · rw [h1]
          show (FsEvent.eread nread :: (kernLoop rest).1).getLast? = some FsEvent.eclose
          cases h' : (kernLoop rest).1 with
          | nil => exact absurd h' hne
          | cons y ys =>
            rw [List.getLast?_cons_cons]
            rw [h'] at hlast
            exact hlast
        · rw [h1]
          show (FsEvent.eread nread :: (kernLoop rest).1).count FsEvent.eclose = 1
          simp [List.count_cons, hcount]
        · rw [h1]
          show (kernLoop rest).2 = _
          simp [get_inst_kern_ver, hs, hres]

/-! ## Claim theorems -/

/-- C1: for a kernel-image byte stream whose scan first hits the marker
`@(#)` at position `i` of a chunk (all earlier chunks and all earlier
positions of this chunk are marker-free) with the bytes `OpenBSD 7.4`
and then a newline following it, get_inst_kern_ver returns exactly the
string "OpenBSD 7.4": the 4-byte marker is skipped, the string is
truncated at the newline, and all bytes after the newline (the arbitrary
`tail` and any later chunks) are discarded. -/
theorem c1_extract_openbsd74
    (pre : List (List Nat × Nat)) (buf : List Nat) (nread : Nat)
    (rest : List (List Nat × Nat)) (i : Nat) (tail : List Nat)
    (hpre : ∀ c ∈ pre, scanChunk c.1 c.2 = none)
    (hfirst : ∀ j, j < i → isMarkerAt buf j = false)
    (hlt : i < nread)
    (hdrop : buf.drop i = bytes "@(#)OpenBSD 7.4" ++ 10 :: tail) :
    get_inst_kern_ver (pre ++ (buf, nread) :: rest) = some (bytes "OpenBSD 7.4") := by
  have hb : bytes "@(#)OpenBSD 7.4" ++ 10 :: tail
      = 64 :: 40 :: 35 :: 41 :: (bytes "OpenBSD 7.4" ++ 10 :: tail) := rfl
  have hscan := scanChunk_found buf nread i (bytes "OpenBSD 7.4") tail hfirst hlt
    (by rw [hdrop, hb]) (by decide) (by decide)
  exact kern_found pre rest buf nread _ hpre hscan

/-- C1 witness: a concrete single-chunk stream containing
`@(#)OpenBSD 7.4\n` followed by further bytes. -/
theorem c1_extract_openbsd74_witness :
    get_inst_kern_ver [((bytes "@(#)OpenBSD 7.4" ++ 10 :: [109, 111, 114, 101, 0]), 21)]
      = some (bytes "OpenBSD 7.4") :=
  c1_extract_openbsd74 [] (bytes "@(#)OpenBSD 7.4" ++ 10 :: [109, 111, 114, 101, 0]) 21 [] 0
    [109, 111, 114, 101, 0]
    (by intro c hc; cases hc) (by intro j hj; omega) (by decide) rfl

/-- C3 counterexample: a chunk where a newline immediately follows the
marker.  The claim says the returned string is then empty; the code's
strpchr returns 0 for a newline at offset 0, the `> 0` guard skips the
truncation, and strdup copies through the newline up to the first NUL, so
the returned string is `[10, 65]`, not `[]`. -/
theorem c3_counterexample :
    get_inst_kern_ver [([64, 40, 35, 41, 10, 65, 0], 7)] = some [10, 65] ∧
    get_inst_kern_ver [([64, 40, 35, 41, 10, 65, 0], 7)] ≠ some [] := by decide

/-- C3 amended: when the marker is matched (first hit at position `i`) and
the first newline after the marker sits at a positive offset, with no NUL
byte before it, the returned string is exactly the bytes strictly between
the end of the marker and that newline.  (When the newline immediately
follows the marker the truncation is skipped and the result instead runs
through the newline to the first NUL, as the counterexample shows.) -/
theorem c3_truncate_amended
    (pre : List (List Nat × Nat)) (buf : List Nat) (nread : Nat)
    (rest : List (List Nat × Nat)) (i : Nat) (ver tail : List Nat)
    (hpre : ∀ c ∈ pre, scanChunk c.1 c.2 = none)
    (hfirst : ∀ j, j < i → isMarkerAt buf j = false)
    (hlt : i < nread)
    (hdrop : buf.drop i = 64 :: 40 :: 35 :: 41 :: (ver ++ 10 :: tail))
    (hne : ver ≠ [])
    (hb : ∀ b ∈ ver, b ≠ 0 ∧ b ≠ 10) :
    get_inst_kern_ver (pre ++ (buf, nread) :: rest) = some ver :=
  kern_found pre rest buf nread ver hpre
    (scanChunk_found buf nread i ver tail hfirst hlt hdrop hne hb)

/-- C3 amended witness: marker, one byte `X`, newline, then a NUL. -/
theorem c3_truncate_amended_witness :
    get_inst_kern_ver [([64, 40, 35, 41, 88, 10, 0], 7)] = some [88] :=
  c3_truncate_amended [] [64, 40, 35, 41, 88, 10, 0] 7 [] 0 [88] [0]
    (by intro c hc; cases hc) (by intro j hj; omega) (by decide) rfl
    (by decide) (by decide)

/-- C4: the marker test reads `buf[p+1..p+3]` bounded only by `p < nread`,
so the result of get_inst_kern_ver depends on residual buffer bytes at or
beyond the read length.  Two reads whose single valid byte is identically
`0x40` but whose residual bytes differ (`0x28 0x23 0x29` vs NULs) give
different results, contradicting the claimed noninterference. -/
theorem c4_residual_bytes_consulted :
    ([64, 40, 35, 41, 0] : List Nat).take 1 = ([64, 0, 0, 0, 0] : List Nat).take 1 ∧
    get_inst_kern_ver [([64, 40, 35, 41, 0], 1)] = some [] ∧
    get_inst_kern_ver [([64, 0, 0, 0, 0], 1)] = none := by decide

/-- C5: each of the ten exact flag tokens dispatches to its documented
code 1..10, and no earlier table entry's token contains a later entry's
exact token as a substring (so first-match tie-breaking cannot misroute an
exact flag). -/
theorem c5_exact_flag_codes :
    match_args cb (some (bytes "-machine")) = 1 ∧
    match_args cb (some (bytes "-model")) = 2 ∧
    match_args cb (some (bytes "-ncpu")) = 3 ∧
    match_args cb (some (bytes "-border")) = 4 ∧
    match_args cb (some (bytes "-oncpu")) = 5 ∧
    match_args cb (some (bytes "-issmt")) = 6 ∧
    match_args cb (some (bytes "-uname")) = 7 ∧
    match_args cb (some (bytes "-bsdver")) = 8 ∧
    match_args cb (some (bytes "-ikern")) = 9 ∧
    match_args cb (some (bytes "-help")) = 10 ∧
    cb.Pairwise (fun e1 e2 => strstrB e1.2 e2.2 = false) := by decide

/-- C6: with `-border` selected, main prints (with trailing newline) the
fixed mapping of the OS byte-order integer: 1234 to "little", 4321 to
"big", and any other value to "mixed". -/
theorem c6_byte_order_mapping (env : Env) :
    sysver_main env (some (bytes "-border")) = MainResult.printLine (byte_order_str env.hw_byteorder) ∧
    renderOut (MainResult.printLine (byte_order_str env.hw_byteorder))
      = byte_order_str env.hw_byteorder ++ [10] ∧
    byte_order_str 1234 = bytes "little" ∧
    byte_order_str 4321 = bytes "big" ∧
    ∀ n : Int, n ≠ 1234 → n ≠ 4321 → byte_order_str n = bytes "mixed" := by
  refine ⟨?_, rfl, by decide, by decide, ?_⟩
  · show dispatch env (bytes "-border") (match_args cb (some (bytes "-border"))) = _
    have h4 : match_args cb (some (bytes "-border")) = 4 := by decide
    rw [h4]
    rfl
  · intro n h1 h2
    simp [byte_order_str, h1, h2]

/-- C6 witness: an integer other than 1234 and 4321 maps to "mixed". -/
theorem c6_byte_order_mapping_witness : byte_order_str 9999 = bytes "mixed" :=
  (c6_byte_order_mapping defaultEnv).2.2.2.2 9999 (by decide) (by decide)

/-- C7: when no position of any chunk matches the marker, get_inst_kern_ver
returns absence, and the `-ikern` path of main reports the fixed message
"unknown (I can't find it!)" with a newline on the error stream while
exiting zero (main falls off its end), not a fatal non-zero exit. -/
theorem c7_marker_absent_unknown (env : Env)
    (h : ∀ c ∈ env.kern_chunks, ∀ p, p < c.2 → isMarkerAt c.1 p = false) :
    get_inst_kern_ver env.kern_chunks = none ∧
    sysver_main env (some (bytes "-ikern")) = MainResult.ikernUnknown ∧
    renderErr MainResult.ikernUnknown = bytes "unknown (I can't find it!)\n" ∧
    exit_code MainResult.ikernUnknown = 0 := by
  have hn := kern_none env.kern_chunks h
  refine ⟨hn, ?_, by decide, rfl⟩
  show dispatch env (bytes "-ikern") (match_args cb (some (bytes "-ikern"))) = _
  have h9 : match_args cb (some (bytes "-ikern")) = 9 := by decide
  rw [h9]
  simp [dispatch, hn]

/-- C7 witness: a concrete marker-free kernel image. -/
theorem c7_marker_absent_unknown_witness :
    get_inst_kern_ver defaultEnv.kern_chunks = none ∧
    sysver_main defaultEnv (some (bytes "-ikern")) = MainResult.ikernUnknown :=
  ⟨(c7_marker_absent_unknown defaultEnv (by decide)).1,
   (c7_marker_absent_unknown defaultEnv (by decide)).2.1⟩

/-- C8: a sole argument of exactly "-" makes the dispatcher return the
distinguished code -2; main then takes the errx path whose message is
"'-' expects an option." with exit status 1 — a different result and
message from the plain missing-operand usage failure. -/
theorem c8_bare_dash_expects_option (env : Env) :
    match_args cb (some [45]) = -2 ∧
    sysver_main env (some [45]) = MainResult.expectsOption [45] ∧
    exit_code (MainResult.expectsOption [45]) = 1 ∧
    renderErr (MainResult.expectsOption [45]) = bytes "'-' expects an option.\n" ∧
    MainResult.expectsOption [45] ≠ MainResult.usage false ∧
    sysver_main env none = MainResult.usage false := by
  refine ⟨by decide, ?_, rfl, by decide, by decide, ?_⟩
  · show dispatch env [45] (match_args cb (some [45])) = _
    have h : match_args cb (some [45]) = -2 := by decide
    rw [h]
    rfl
  · rfl

/-- C2: for any argument that is a C string (no NUL byte) other than the
bare dash, the dispatcher returns the code of the first table entry whose
token contains the argument as a contiguous substring, and 0 when no
token contains it — in which case main takes the fatal
"option is invalid" exit echoing the argument; e.g. argument "mod"
yields the code of "-model". -/
theorem c2_substring_first_match (env : Env) (a : List Nat)
    (h0 : (0 : Nat) ∉ a) (hdash : a ≠ [45]) :
    match_args cb (some a) = ((cb.find? (fun e => strstrB e.2 a)).map Prod.fst).getD 0 ∧
    ((∀ e ∈ cb, strstrB e.2 a = false) →
      match_args cb (some a) = 0 ∧
      sysver_main env (some a) = MainResult.invalidOption a ∧
      exit_code (MainResult.invalidOption a) = 1 ∧
      renderErr (MainResult.invalidOption a) = 39 :: (a ++ 39 :: bytes " option is invalid.\n")) ∧
    match_args cb (some (bytes "mod")) = 2 := by
  have hd := dash_cond_false a h0 hdash
  have hm : match_args cb (some a) = matchLoop a cb := by
    show (if a.headD 0 = 45 ∧ (a.drop 1).headD 0 = 0 then -2 else matchLoop a cb) = matchLoop a cb
    rw [if_neg hd]
  refine ⟨?_, ?_, by decide⟩
  · rw [hm]
    exact matchLoop_eq_find a cb
  · intro hno
    have hnone : cb.find? (fun e => strstrB e.2 a) = none :=
      List.find?_eq_none.mpr (fun x hx => by simp [hno x hx])
    have h0' : match_args cb (some a) = 0 := by
      rw [hm, matchLoop_eq_find a cb, hnone]
      rfl
    refine ⟨h0', ?_, rfl, rfl⟩
    show dispatch env a (match_args cb (some a)) = _
    rw [h0']
    rfl

/-- C2 witness: the argument "z" occurs in no token, so dispatch returns 0
and main reports it invalid. -/
theorem c2_substring_first_match_witness :
    match_args cb (some [122]) = 0 ∧
    sysver_main defaultEnv (some [122]) = MainResult.invalidOption [122] :=
  ⟨((c2_substring_first_match defaultEnv [122] (by decide) (by decide)).2.1 (by decide)).1,
   ((c2_substring_first_match defaultEnv [122] (by decide) (by decide)).2.1 (by decide)).2.1⟩

/-- C9: the instrumented extractor opens the kernel image exactly once as
its first file action, and on every execution that returns — marker found
or end of chunks — its last file action is the single close of that
descriptor; the instrumented run computes the same result as
get_inst_kern_ver. -/
theorem c9_fd_scoped_close (chunks : List (List Nat × Nat)) :
    (kern_trace chunks).1.head? = some FsEvent.eopen ∧
    (kern_trace chunks).1.getLast? = some FsEvent.eclose ∧
    (kern_trace chunks).1.count FsEvent.eclose = 1 ∧
    (kern_trace chunks).2 = get_inst_kern_ver chunks := by
  obtain ⟨hne, hlast, hcount, hres⟩ := kernLoop_spec chunks
  refine ⟨rfl, ?_, ?_, hres⟩
  · show (FsEvent.eopen :: (kernLoop chunks).1).getLast? = some FsEvent.eclose
    cases h' : (kernLoop chunks).1 with
    | nil => exact absurd h' hne
    | cons y ys =>
      rw [List.getLast?_cons_cons]
      rw [h'] at hlast
      exact hlast
  · show (FsEvent.eopen :: (kernLoop chunks).1).count FsEvent.eclose = 1
    simp [List.count_cons, hcount]

/-- C10: the empty string argument is a substring of every flag token, so
the dispatcher returns 1 (the first entry, "-machine") and main prints the
hardware architecture rather than reporting an unrecognized option. -/
theorem c10_empty_arg_matches_machine (env : Env) :
    match_args cb (some []) = 1 ∧
    sysver_main env (some []) = MainResult.printLine env.hw_machine ∧
    ∀ e ∈ cb, strstrB e.2 [] = true := by
  refine ⟨by decide, ?_, by decide⟩
  show dispatch env [] (match_args cb (some [])) = _
  have h : match_args cb (some []) = 1 := by decide
  rw [h]
  rfl
